import Mathlib

/-!
Verification of the `CurrencyConverter` class from `currency_converter.py`.

The Python code is shallowly embedded:

* Python `dict` becomes an insertion-ordered association list with
  first-match lookup (`dictGet`) and replace-or-append update (`dictSet`),
  which matches CPython dict semantics for the operations the code uses.
* Python `float` becomes `PyFloat`: an exact rational value or the special
  value `float('nan')`. NaN is load-bearing: every comparison against it is
  false, so the write-time gate `rate <= 0` in `update_exchange_rate` does
  not reject it; multiplication and division propagate it. Conversion
  amounts are quantified as ordinary (rational) numbers.
* Dynamically typed arguments (the `isinstance` checks in `get_rate` and
  `update_exchange_rate`, and the comparison `rate <= 0` that raises
  `TypeError` on a non-numeric operand) are modelled by `PyVal`.
* Raised exceptions become the `.error` side of `Except PyError`.
* Every method that can touch `self` is state-passing: it returns its
  result together with the (possibly unchanged) converter state.
* The wall-clock timestamp `datetime.datetime.now().isoformat()` is an
  explicit `now : String` parameter.
-/

/-- A Python `float` as this program observes one: an ordinary (finite)
value, modelled exactly by `ℚ`, or the special value `float('nan')`.
Infinities are omitted: under the comparisons this program performs,
`float('inf')` behaves like any positive real value and `float('-inf')`
like any negative one, so only NaN decides anything a real value cannot. -/
inductive PyFloat where
  | real (q : ℚ)
  | nan
deriving DecidableEq, Repr

/-- Python `<=` on floats: the usual order on real values, and false
whenever either side is NaN. -/
def PyFloat.le : PyFloat → PyFloat → Prop
  | .real x, .real y => x ≤ y
  | _, _ => False

/-- Python `<` on floats: false whenever either side is NaN. -/
def PyFloat.lt : PyFloat → PyFloat → Prop
  | .real x, .real y => x < y
  | _, _ => False

instance : LE PyFloat := ⟨PyFloat.le⟩

instance : LT PyFloat := ⟨PyFloat.lt⟩

instance : (a b : PyFloat) → Decidable (a ≤ b)
  | .real x, .real y => inferInstanceAs (Decidable (x ≤ y))
  | .real _, .nan => isFalse id
  | .nan, .real _ => isFalse id
  | .nan, .nan => isFalse id

instance : (a b : PyFloat) → Decidable (a < b)
  | .real x, .real y => inferInstanceAs (Decidable (x < y))
  | .real _, .nan => isFalse id
  | .nan, .real _ => isFalse id
  | .nan, .nan => isFalse id

instance (n : Nat) : OfNat PyFloat n := ⟨.real (OfNat.ofNat n)⟩

/-- Python float multiplication: NaN absorbs. -/
instance : Mul PyFloat :=
  ⟨fun a b =>
    match a, b with
    | .real x, .real y => .real (x * y)
    | _, _ => .nan⟩

/-- Python float division, as applied to table values (`1.0 / r`): NaN
propagates. (The program only ever divides by stored rates, which the
write-time gate keeps nonzero.) -/
instance : Div PyFloat :=
  ⟨fun a b =>
    match a, b with
    | .real x, .real y => .real (x / y)
    | _, _ => .nan⟩

/-- Python `amount * rate` in `convert`: a real amount times a resolved
rate; NaN propagates. -/
instance : HMul ℚ PyFloat PyFloat := ⟨fun a b => PyFloat.real a * b⟩

/-- A dynamically typed Python value, as far as the converter inspects one:
a `str`, a `float` (a `PyFloat`: real or NaN), or any other non-string
non-number object (e.g. `None`). -/
inductive PyVal where
  | pyStr (s : String)
  | pyFloat (x : PyFloat)
  | pyNone
deriving DecidableEq, Repr

/-- Python `isinstance(v, str)`. -/
def PyVal.isStr : PyVal → Bool
  | .pyStr _ => true
  | _ => false

/-- A raised Python exception (`ValueError` with its message, or the
`TypeError` raised by an unsupported comparison). -/
inductive PyError where
  | valueError (msg : String)
  | typeError (msg : String)
deriving DecidableEq, Repr

instance {ε α : Type} [DecidableEq ε] [DecidableEq α] :
    DecidableEq (Except ε α) := fun a b =>
  match a, b with
  | .error e, .error f =>
      if h : e = f then isTrue (congrArg Except.error h)
      else isFalse fun hc => h (Except.error.inj hc)
  | .ok x, .ok y =>
      if h : x = y then isTrue (congrArg Except.ok h)
      else isFalse fun hc => h (Except.ok.inj hc)
  | .error _, .ok _ => isFalse fun hc => Except.noConfusion hc
  | .ok _, .error _ => isFalse fun hc => Except.noConfusion hc

/-- Python `d.get(k)` / `d[k]` on an insertion-ordered association list:
the value of the first (unique) entry whose key equals `k`. -/
def dictGet {α β : Type} [DecidableEq α] : List (α × β) → α → Option β
  | [], _ => none
  | (k', v) :: rest, k => if k' = k then some v else dictGet rest k

/-- Python `d[k] = v`: overwrite the existing entry in place, or append a
new entry at the end. -/
def dictSet {α β : Type} [DecidableEq α] : List (α × β) → α → β → List (α × β)
  | [], k, v => [(k, v)]
  | (k', v') :: rest, k, v =>
      if k' = k then (k, v) :: rest else (k', v') :: dictSet rest k v

/-- Python `str.upper()` on the code points the program uses: uppercase
every character (`Char.toUpper` is the ASCII uppercasing). Defined over the
character list so that it evaluates by kernel reduction. -/
def strUpper (s : String) : String :=
  ⟨s.data.map Char.toUpper⟩

/-- The result dict built by `CurrencyConverter.convert` (lines 65-72). -/
structure ConvRecord where
  original_amount : ℚ
  from_currency : String
  to_currency : String
  converted_amount : PyFloat
  exchange_rate : PyFloat
  timestamp : String
deriving DecidableEq, Repr

/-- The state of a `CurrencyConverter` instance: the tuple-keyed
`exchange_rates` dict and the per-user `conversion_history` dict. -/
structure CurrencyConverter where
  exchange_rates : List ((String × String) × PyFloat)
  conversion_history : List (String × List ConvRecord)
deriving DecidableEq, Repr

/-- Model of `CurrencyConverter.__init__` (lines 5-13): the four fixed rates and an
empty history. -/
def CurrencyConverter.init : CurrencyConverter :=
  { exchange_rates :=
      [ (("USD", "EUR"), 91/100),
        (("USD", "GBP"), 77/100),
        (("EUR", "USD"), 11/10),
        (("GBP", "USD"), 13/10) ],
    conversion_history := [] }

/-- Lines 28-34 of `get_rate`: resolve the `from_currency → USD` leg
(direct entry preferred, else the reciprocal of the inverse entry, else a
`ValueError`). -/
def leg_to_usd (tbl : List ((String × String) × PyFloat)) (f : String) :
    Except PyError PyFloat :=
  match dictGet tbl (f, "USD") with
  | some r => .ok r
  | none =>
      match dictGet tbl ("USD", f) with
      | some r => .ok (1 / r)
      | none => .error (.valueError ("No exchange rate found for " ++ f ++ " to USD"))

/-- Lines 36-42 of `get_rate`: resolve the `USD → to_currency` leg. -/
def leg_from_usd (tbl : List ((String × String) × PyFloat)) (t : String) :
    Except PyError PyFloat :=
  match dictGet tbl ("USD", t) with
  | some r => .ok r
  | none =>
      match dictGet tbl (t, "USD") with
      | some r => .ok (1 / r)
      | none => .error (.valueError ("No exchange rate found for USD to " ++ t))

/-- Model of `CurrencyConverter.get_rate` (lines 15-48). Arguments are `PyVal`
because the method type-checks them itself; the state is threaded through
to make the (absence of) mutation explicit. -/
def get_rate (c : CurrencyConverter) (from_currency to_currency : PyVal) :
    Except PyError PyFloat × CurrencyConverter :=
  match from_currency, to_currency with
  | .pyStr f, .pyStr t =>
      if f = t then (.ok 1, c)
      else
        match dictGet c.exchange_rates (f, t) with
        | some r => (.ok r, c)
        | none =>
            if f ≠ "USD" ∧ t ≠ "USD" then
              match leg_to_usd c.exchange_rates f with
              | .error e => (.error e, c)
              | .ok from_to_usd =>
                  match leg_from_usd c.exchange_rates t with
                  | .error e => (.error e, c)
                  | .ok usd_to_to => (.ok (from_to_usd * usd_to_to), c)
            else
              (.error (.valueError
                ("No exchange rate found for " ++ f ++ " to " ++ t)), c)
  | _, _ => (.error (.valueError "Currency codes must be strings"), c)

/-- Model of `CurrencyConverter.convert` (lines 50-80). `amount` is numeric (the
method's arithmetic only makes sense on numbers) and the currency codes are
strings (the method calls `.upper()` on them); `user_id` is `Optional[str]`
and `if user_id:` is Python truthiness (`None` and `""` are falsy). -/
def convert (c : CurrencyConverter) (amount : ℚ)
    (from_currency to_currency : String) (user_id : Option String)
    (now : String) : Except PyError ConvRecord × CurrencyConverter :=
  if amount ≤ 0 then (.error (.valueError "Amount must be positive"), c)
  else
    let f := strUpper from_currency
    let t := strUpper to_currency
    match get_rate c (.pyStr f) (.pyStr t) with
    | (.error e, c1) => (.error e, c1)
    | (.ok rate, c1) =>
        let result : ConvRecord :=
          { original_amount := amount,
            from_currency := f,
            to_currency := t,
            converted_amount := amount * rate,
            exchange_rate := rate,
            timestamp := now }
        match user_id with
        | none => (.ok result, c1)
        | some uid =>
            if uid = "" then (.ok result, c1)
            else
              let prev := (dictGet c1.conversion_history uid).getD []
              (.ok result,
                { c1 with conversion_history :=
                    dictSet c1.conversion_history uid (prev ++ [result]) })

/-- Model of `CurrencyConverter.get_user_history` (lines 82-84). -/
def get_user_history (c : CurrencyConverter) (user_id : String) :
    List ConvRecord :=
  (dictGet c.conversion_history user_id).getD []

/-- Model of `CurrencyConverter.clear_user_history` (lines 96-101). -/
def clear_user_history (c : CurrencyConverter) (user_id : String) :
    Bool × CurrencyConverter :=
  match dictGet c.conversion_history user_id with
  | some _ =>
      (true, { c with conversion_history :=
                 dictSet c.conversion_history user_id [] })
  | none => (false, c)

/-- Model of `CurrencyConverter.update_exchange_rate` (lines 115-130). The `rate`
argument is a `PyVal`: the method performs no `isinstance` check on it, so
evaluating `rate <= 0` on a non-numeric value raises `TypeError` (CPython
does not support `<=` between e.g. `str`/`NoneType` and `int`). -/
def update_exchange_rate (c : CurrencyConverter)
    (from_currency to_currency rate : PyVal) :
    Except PyError Bool × CurrencyConverter :=
  match from_currency, to_currency with
  | .pyStr f, .pyStr t =>
      match rate with
      | .pyFloat r =>
          if r ≤ 0 then (.ok false, c)
          else
            (.ok true,
              { c with exchange_rates :=
                  dictSet c.exchange_rates (strUpper f, strUpper t) r })
      | _ =>
          (.error (.typeError
            "unsupported comparison between non-number and int"), c)
  | _, _ => (.ok false, c)

/-- The table invariant of claim C8: every stored rate value is strictly
positive. -/
def ratesPositive (c : CurrencyConverter) : Prop :=
  ∀ p ∈ c.exchange_rates, 0 < p.2

/-- The weaker table invariant that the write-time gate `rate <= 0`
actually enforces: no stored rate compares `≤ 0` — equivalently, every
stored rate is strictly positive or NaN. -/
def ratesNotNonpos (c : CurrencyConverter) : Prop :=
  ∀ p ∈ c.exchange_rates, ¬ p.2 ≤ (0 : PyFloat)

/-- One call to any state-bearing operation of the class, with its
arguments: used to quantify over arbitrary sequences of operations. -/
inductive Op where
  | opGetRate (f t : PyVal)
  | opConvert (amount : ℚ) (f t : String) (uid : Option String) (now : String)
  | opUpdateRate (f t r : PyVal)
  | opClearHistory (u : String)

/-- The state reached after performing one operation (its result value is
discarded; only the successor state matters for state invariants). -/
def applyOp (c : CurrencyConverter) : Op → CurrencyConverter
  | .opGetRate f t => (get_rate c f t).2
  | .opConvert a f t u now => (convert c a f t u now).2
  | .opUpdateRate f t r => (update_exchange_rate c f t r).2
  | .opClearHistory u => (clear_user_history c u).2

/-- True when the operation does not pass `float('nan')` as an update
rate — the one input the write-time gate cannot bounce. -/
def Op.nanFree : Op → Bool
  | .opUpdateRate _ _ (.pyFloat .nan) => false
  | _ => true

/-! ## Shared lemmas -/

theorem get_rate_state (c : CurrencyConverter) (f t : PyVal) :
    (get_rate c f t).2 = c := by
  unfold get_rate
  repeat' split <;> try rfl

theorem dictGet_dictSet_self {α β : Type} [DecidableEq α]
    (l : List (α × β)) (k : α) (v : β) :
    dictGet (dictSet l k v) k = some v := by
  induction l with
  | nil => simp [dictGet, dictSet]
  | cons p rest ih =>
      obtain ⟨k', v'⟩ := p
      by_cases h : k' = k <;> simp [dictGet, dictSet, h, ih]

theorem dictGet_dictSet_ne {α β : Type} [DecidableEq α]
    (l : List (α × β)) (k k' : α) (v : β) (h : k' ≠ k) :
    dictGet (dictSet l k v) k' = dictGet l k' := by
  induction l with
  | nil => simp [dictGet, dictSet, Ne.symm h]
  | cons p rest ih =>
      obtain ⟨k0, v0⟩ := p
      by_cases h0 : k0 = k
      · subst h0
        simp [dictGet, dictSet, Ne.symm h]
      · simp [dictGet, dictSet, h0, ih]

theorem mem_dictSet {α β : Type} [DecidableEq α]
    (l : List (α × β)) (k : α) (v : β) (p : α × β)
    (hp : p ∈ dictSet l k v) : p = (k, v) ∨ p ∈ l := by
  induction l with
  | nil => simpa [dictSet] using hp
  | cons q rest ih =>
      obtain ⟨k0, v0⟩ := q
      by_cases h0 : k0 = k
      · simp [dictSet, h0] at hp
        rcases hp with h | h
        · exact Or.inl (by simp [h])
        · exact Or.inr (by simp [h])
      · simp [dictSet, h0] at hp
        rcases hp with h | h
        · exact Or.inr (by simp [h])
        · rcases ih h with h1 | h1
          · exact Or.inl h1
          · exact Or.inr (by simp [h1])

theorem dictGet_mem {α β : Type} [DecidableEq α]
    (l : List (α × β)) (k : α) (v : β)
    (h : dictGet l k = some v) : (k, v) ∈ l := by
  induction l with
  | nil => simp [dictGet] at h
  | cons p rest ih =>
      obtain ⟨k0, v0⟩ := p
      by_cases h0 : k0 = k
      · subst h0
        simp [dictGet] at h
        subst h
        exact List.mem_cons_self _ _
      · simp only [dictGet, if_neg h0] at h
        exact List.mem_cons_of_mem _ (ih h)

theorem PyFloat.not_le_zero_of_pos {q : PyFloat}
    (h : (0 : PyFloat) < q) : ¬ q ≤ 0 := by
  cases q with
  | real x => exact not_le.mpr (show (0 : ℚ) < x from h)
  | nan => exact (h : False).elim

theorem convert_state_rates (c : CurrencyConverter) (amount : ℚ)
    (fc tc : String) (uid : Option String) (now : String) :
    (convert c amount fc tc uid now).2.exchange_rates = c.exchange_rates := by
  unfold convert
  by_cases ha : amount ≤ 0
  · rw [if_pos ha]
  · rw [if_neg ha]
    dsimp only
    have hst := get_rate_state c (.pyStr (strUpper fc)) (.pyStr (strUpper tc))
    rcases hgr : get_rate c (.pyStr (strUpper fc)) (.pyStr (strUpper tc)) with ⟨r, c1⟩
    rw [hgr] at hst
    dsimp only at hst
    cases r with
    | error e => dsimp only; rw [hst]
    | ok rate =>
        cases uid with
        | none => dsimp only; rw [hst]
        | some u =>
            dsimp only
            by_cases hu : u = ""
            · rw [if_pos hu]; dsimp only; rw [hst]
            · rw [if_neg hu]; dsimp only; rw [hst]

theorem clear_state_rates (c : CurrencyConverter) (u : String) :
    (clear_user_history c u).2.exchange_rates = c.exchange_rates := by
  unfold clear_user_history
  split <;> rfl

/-! ## Claim theorems -/

/-- C7: for every string currency code `x`, `get_rate` on `(x, x)` returns
exactly `1.0` and the state untouched, for every rate table (even an empty
one) — the same-currency shortcut fires before any table lookup. -/
theorem getRate_self_is_one (c : CurrencyConverter) (x : String) :
    get_rate c (.pyStr x) (.pyStr x) = (.ok 1, c) := by
  simp [get_rate]

/-- C10: every call to `get_rate` — returning a rate or an error — leaves
the converter state (rate table and history map) unchanged: it is a pure
read. -/
theorem getRate_pure_read (c : CurrencyConverter) (f t : PyVal) :
    (get_rate c f t).2 = c :=
  get_rate_state c f t

/-- C9: if either argument of `get_rate` is not a string, it raises
`ValueError` before any other processing; in particular two equal
non-string arguments raise rather than return `1.0`, because the type
check precedes the same-currency shortcut. -/
theorem getRate_nonstring_raises (c : CurrencyConverter) :
    (∀ f t : PyVal, f.isStr = false ∨ t.isStr = false →
        get_rate c f t =
          (.error (.valueError "Currency codes must be strings"), c)) ∧
    (∀ v : PyVal, v.isStr = false → (get_rate c v v).1 ≠ .ok 1) := by
  constructor
  · intro f t h
    cases f <;> cases t <;> first
      | rfl
      | simp [PyVal.isStr] at h
  · intro v hv
    cases v <;> simp_all [get_rate, PyVal.isStr]

/-- Witness for C9 at a concrete input: `get_rate(None, None)` raises the
string type-check `ValueError`, even though both arguments are equal. -/
theorem getRate_nonstring_raises_witness :
    get_rate CurrencyConverter.init .pyNone .pyNone =
      (.error (.valueError "Currency codes must be strings"),
        CurrencyConverter.init) :=
  (getRate_nonstring_raises CurrencyConverter.init).1 .pyNone .pyNone
    (Or.inl rfl)

/-- C4: for distinct codes where `from` or `to` is the pivot `"USD"` and no
direct entry exists, `get_rate` takes no two-hop path and fails with the
final "No exchange rate found for from to to" `ValueError`. -/
theorem getRate_pivot_no_direct_fails (c : CurrencyConverter) (f t : String)
    (hne : f ≠ t) (husd : f = "USD" ∨ t = "USD")
    (hdir : dictGet c.exchange_rates (f, t) = none) :
    (get_rate c (.pyStr f) (.pyStr t)).1 =
      .error (.valueError ("No exchange rate found for " ++ f ++ " to " ++ t)) := by
  have hcond : ¬(f ≠ "USD" ∧ t ≠ "USD") := by
    rcases husd with h | h <;> simp [h]
  simp only [get_rate]
  rw [if_neg hne, hdir]
  dsimp only
  rw [if_neg hcond]

/-- Witness for C4: on the initial table, `get_rate("USD", "JPY")` fails
with the error naming the missing pair. -/
theorem getRate_pivot_no_direct_fails_witness :
    (get_rate CurrencyConverter.init (.pyStr "USD") (.pyStr "JPY")).1 =
      .error (.valueError
        ("No exchange rate found for " ++ "USD" ++ " to " ++ "JPY")) :=
  getRate_pivot_no_direct_fails CurrencyConverter.init "USD" "JPY"
    (by decide) (Or.inl rfl) (by rfl)

/-- C1: for `from ≠ to`, neither equal to `"USD"`, with no direct entry,
`get_rate` returns `legFrom * legTo`, where `legFrom` is the `(from,USD)`
table value if present and else the reciprocal of the `(USD,from)` value
(`leg_to_usd`), and symmetrically for `legTo` (`leg_from_usd`). -/
theorem getRate_two_hop_legs (c : CurrencyConverter) (f t : String) (a b : PyFloat)
    (hft : f ≠ t) (hf : f ≠ "USD") (ht : t ≠ "USD")
    (hdir : dictGet c.exchange_rates (f, t) = none)
    (ha : leg_to_usd c.exchange_rates f = .ok a)
    (hb : leg_from_usd c.exchange_rates t = .ok b) :
    (get_rate c (.pyStr f) (.pyStr t)).1 = .ok (a * b) := by
  simp only [get_rate]
  rw [if_neg hft, hdir]
  dsimp only
  rw [if_pos ⟨hf, ht⟩, ha]
  dsimp only
  rw [hb]

/-- Witness for C1, instantiating the "in particular" scenario: the table
holds only `("USD","EUR") ↦ 2` and `("GBP","USD") ↦ 4` (both inverted
relative to the path), and `get_rate("EUR","GBP") = (1/2) * (1/4)`. -/
theorem getRate_two_hop_legs_witness :
    (get_rate ⟨[(("USD", "EUR"), 2), (("GBP", "USD"), 4)], []⟩
        (.pyStr "EUR") (.pyStr "GBP")).1 = .ok (1/2 * (1/4 : PyFloat)) :=
  getRate_two_hop_legs ⟨[(("USD", "EUR"), 2), (("GBP", "USD"), 4)], []⟩
    "EUR" "GBP" (1/2) (1/4) (by decide) (by decide) (by decide)
    (by rfl) (by rfl) (by rfl)

/-- C2: a successful `convert` returns a record carrying the uppercased
codes, the resolved rate for the uppercased codes, and
`converted_amount = amount * rate`. -/
theorem convert_success_record (c : CurrencyConverter) (amount : ℚ)
    (fc tc : String) (uid : Option String) (now : String) (r : PyFloat)
    (hpos : 0 < amount)
    (hr : (get_rate c (.pyStr (strUpper fc)) (.pyStr (strUpper tc))).1 = .ok r) :
    (convert c amount fc tc uid now).1 =
      .ok { original_amount := amount, from_currency := strUpper fc,
            to_currency := strUpper tc, converted_amount := amount * r,
            exchange_rate := r, timestamp := now } := by
  unfold convert
  rw [if_neg (not_le.mpr hpos)]
  dsimp only
  rcases hgr : get_rate c (.pyStr (strUpper fc)) (.pyStr (strUpper tc)) with ⟨res, c1⟩
  rw [hgr] at hr
  dsimp only at hr
  subst hr
  cases uid with
  | none => rfl
  | some u =>
      dsimp only
      by_cases hu : u = ""
      · rw [if_pos hu]
      · rw [if_neg hu]

/-- Witness for C2: `convert(100, "usd", "eur")` on a fresh instance
normalizes the codes to `"USD"`/`"EUR"` and yields `100 * 0.91`. -/
theorem convert_success_record_witness :
    (convert CurrencyConverter.init 100 "usd" "eur" none "2024-01-01T00:00:00").1 =
      .ok { original_amount := 100, from_currency := strUpper "usd",
            to_currency := strUpper "eur",
            converted_amount := (100 : ℚ) * (91/100 : PyFloat),
            exchange_rate := 91/100, timestamp := "2024-01-01T00:00:00" } :=
  convert_success_record CurrencyConverter.init 100 "usd" "eur" none
    "2024-01-01T00:00:00" (91/100) (by norm_num) (by rfl)

/-- C5: `convert` with `amount ≤ 0` raises the validation `ValueError` and
returns the state untouched (rate table and history both); moreover no
`convert` call, successful or failing, ever changes the rate table. -/
theorem convert_nonpos_error_and_rates_frame (c : CurrencyConverter)
    (amount : ℚ) (fc tc : String) (uid : Option String) (now : String) :
    (amount ≤ 0 →
        convert c amount fc tc uid now =
          (.error (.valueError "Amount must be positive"), c)) ∧
    (convert c amount fc tc uid now).2.exchange_rates = c.exchange_rates := by
  constructor
  · intro ha
    unfold convert
    rw [if_pos ha]
  · exact convert_state_rates c amount fc tc uid now

/-- Witness for C5: `convert(0, ...)` fails with the validation error and
the returned state is exactly the input state. -/
theorem convert_nonpos_error_and_rates_frame_witness :
    convert CurrencyConverter.init 0 "USD" "EUR" (some "alice") "T" =
      (.error (.valueError "Amount must be positive"),
        CurrencyConverter.init) :=
  (convert_nonpos_error_and_rates_frame CurrencyConverter.init 0 "USD" "EUR"
    (some "alice") "T").1 (by norm_num)

/-- C6: a successful `convert` with a non-empty `user_id` appends exactly
the returned record to that user's history (creating the entry if absent)
and changes no other user's entry; `convert` with no `user_id` (or the
empty one, which Python treats as falsy) leaves the whole history map
unchanged, whether it succeeds or fails. -/
theorem convert_history_effect (c : CurrencyConverter) (amount : ℚ)
    (fc tc : String) (now : String) :
    (∀ (u : String) (rec : ConvRecord) (c' : CurrencyConverter), u ≠ "" →
        convert c amount fc tc (some u) now = (.ok rec, c') →
        dictGet c'.conversion_history u =
          some ((dictGet c.conversion_history u).getD [] ++ [rec]) ∧
        ∀ v, v ≠ u →
          dictGet c'.conversion_history v = dictGet c.conversion_history v) ∧
    (∀ uid : Option String, uid = none ∨ uid = some "" →
        (convert c amount fc tc uid now).2.conversion_history =
          c.conversion_history) := by
  constructor
  · intro u rec c' hu h
    unfold convert at h
    by_cases ha : amount ≤ 0
    · rw [if_pos ha] at h
      exact absurd (congrArg Prod.fst h) (by simp)
    · rw [if_neg ha] at h
      dsimp only at h
      have hst := get_rate_state c (.pyStr (strUpper fc)) (.pyStr (strUpper tc))
      rcases hgr : get_rate c (.pyStr (strUpper fc)) (.pyStr (strUpper tc))
        with ⟨res, c1⟩
      rw [hgr] at h hst
      dsimp only at hst
      subst hst
      cases res with
      | error e => exact absurd (congrArg Prod.fst h) (by simp)
      | ok rate =>
          dsimp only at h
          rw [if_neg hu] at h
          rw [Prod.mk.injEq] at h
          obtain ⟨h1, h2⟩ := h
          have h3 := Except.ok.inj h1
          subst h3
          subst h2
          exact ⟨dictGet_dictSet_self _ _ _,
            fun v hv => dictGet_dictSet_ne _ _ _ _ hv⟩
  · intro uid huid
    have hst := get_rate_state c (.pyStr (strUpper fc)) (.pyStr (strUpper tc))
    unfold convert
    by_cases ha : amount ≤ 0
    · rw [if_pos ha]
    · rw [if_neg ha]
      dsimp only
      rcases hgr : get_rate c (.pyStr (strUpper fc)) (.pyStr (strUpper tc))
        with ⟨res, c1⟩
      rw [hgr] at hst
      dsimp only at hst
      cases res with
      | error e => dsimp only; rw [hst]
      | ok rate =>
          rcases huid with rfl | rfl
          · dsimp only; rw [hst]
          · dsimp only
            rw [if_pos rfl]
            dsimp only
            rw [hst]

/-- Witness for C6: converting 100 USD→EUR for user `"alice"` on a fresh
instance creates her history entry holding exactly the returned record. -/
theorem convert_history_effect_witness :
    dictGet (convert CurrencyConverter.init 100 "USD" "EUR" (some "alice")
        "T").2.conversion_history "alice" =
      some ((dictGet CurrencyConverter.init.conversion_history "alice").getD []
        ++ [{ original_amount := 100, from_currency := strUpper "USD",
              to_currency := strUpper "EUR",
              converted_amount := (100 : ℚ) * (91/100 : PyFloat),
              exchange_rate := 91/100, timestamp := "T" }]) :=
  ((convert_history_effect CurrencyConverter.init 100 "USD" "EUR" "T").1
    "alice"
    { original_amount := 100, from_currency := strUpper "USD",
      to_currency := strUpper "EUR", converted_amount := (100 : ℚ) * (91/100 : PyFloat),
      exchange_rate := 91/100, timestamp := "T" }
    (convert CurrencyConverter.init 100 "USD" "EUR" (some "alice") "T").2
    (by decide) (by rfl)).1

theorem update_state_rates (c : CurrencyConverter) (f t r : PyVal) :
    (update_exchange_rate c f t r).2.exchange_rates = c.exchange_rates ∨
    ∃ (sf st : String) (q : PyFloat), ¬ q ≤ (0 : PyFloat) ∧
      (update_exchange_rate c f t r).2.exchange_rates =
        dictSet c.exchange_rates (strUpper sf, strUpper st) q := by
  cases f with
  | pyStr sf =>
      cases t with
      | pyStr st =>
          cases r with
          | pyFloat q =>
              by_cases hq : q ≤ (0 : PyFloat)
              · left
                simp only [update_exchange_rate]
                rw [if_pos hq]
              · right
                refine ⟨sf, st, q, hq, ?_⟩
                simp only [update_exchange_rate]
                rw [if_neg hq]
          | pyStr s => exact Or.inl rfl
          | pyNone => exact Or.inl rfl
      | pyFloat q => exact Or.inl rfl
      | pyNone => exact Or.inl rfl
  | pyFloat q => exact Or.inl rfl
  | pyNone => exact Or.inl rfl

theorem update_state_rates_pos (c : CurrencyConverter) (f t r : PyVal)
    (hnan : r ≠ .pyFloat .nan) :
    (update_exchange_rate c f t r).2.exchange_rates = c.exchange_rates ∨
    ∃ (sf st : String) (x : ℚ), 0 < x ∧
      (update_exchange_rate c f t r).2.exchange_rates =
        dictSet c.exchange_rates (strUpper sf, strUpper st) (.real x) := by
  cases f with
  | pyStr sf =>
      cases t with
      | pyStr st =>
          cases r with
          | pyFloat q =>
              cases q with
              | real x =>
                  by_cases hx : (PyFloat.real x) ≤ (0 : PyFloat)
                  · left
                    simp only [update_exchange_rate]
                    rw [if_pos hx]
                  · right
                    refine ⟨sf, st, x, not_le.mp (show ¬ x ≤ (0 : ℚ) from hx), ?_⟩
                    simp only [update_exchange_rate]
                    rw [if_neg hx]
              | nan => exact absurd rfl hnan
          | pyStr s => exact Or.inl rfl
          | pyNone => exact Or.inl rfl
      | pyFloat q => exact Or.inl rfl
      | pyNone => exact Or.inl rfl
  | pyFloat q => exact Or.inl rfl
  | pyNone => exact Or.inl rfl

theorem applyOp_notNonpos (c : CurrencyConverter) (op : Op)
    (h : ratesNotNonpos c) : ratesNotNonpos (applyOp c op) := by
  cases op with
  | opGetRate f t =>
      intro p hp
      simp only [applyOp] at hp
      rw [get_rate_state] at hp
      exact h p hp
  | opConvert a f t u now =>
      intro p hp
      simp only [applyOp] at hp
      rw [convert_state_rates] at hp
      exact h p hp
  | opClearHistory u =>
      intro p hp
      simp only [applyOp] at hp
      rw [clear_state_rates] at hp
      exact h p hp
  | opUpdateRate f t r =>
      intro p hp
      simp only [applyOp] at hp
      rcases update_state_rates c f t r with heq | ⟨sf, st, q, hq, heq⟩
      · rw [heq] at hp
        exact h p hp
      · rw [heq] at hp
        rcases mem_dictSet _ _ _ _ hp with rfl | hm
        · exact hq
        · exact h p hm

theorem applyOp_positive (c : CurrencyConverter) (op : Op)
    (hop : Op.nanFree op = true) (h : ratesPositive c) :
    ratesPositive (applyOp c op) := by
  cases op with
  | opGetRate f t =>
      intro p hp
      simp only [applyOp] at hp
      rw [get_rate_state] at hp
      exact h p hp
  | opConvert a f t u now =>
      intro p hp
      simp only [applyOp] at hp
      rw [convert_state_rates] at hp
      exact h p hp
  | opClearHistory u =>
      intro p hp
      simp only [applyOp] at hp
      rw [clear_state_rates] at hp
      exact h p hp
  | opUpdateRate f t r =>
      intro p hp
      simp only [applyOp] at hp
      have hnan : r ≠ .pyFloat .nan := by
        intro hr
        subst hr
        simp [Op.nanFree] at hop
      rcases update_state_rates_pos c f t r hnan with heq | ⟨sf, st, x, hx, heq⟩
      · rw [heq] at hp
        exact h p hp
      · rw [heq] at hp
        rcases mem_dictSet _ _ _ _ hp with rfl | hm
        · exact hx
        · exact h p hm

theorem foldl_notNonpos (ops : List Op) :
    ∀ c : CurrencyConverter, ratesNotNonpos c →
      ratesNotNonpos (ops.foldl applyOp c) := by
  induction ops with
  | nil => exact fun c h => h
  | cons op rest ih => exact fun c h => ih _ (applyOp_notNonpos c op h)

theorem foldl_positive (ops : List Op) :
    ∀ c : CurrencyConverter, ops.all Op.nanFree = true → ratesPositive c →
      ratesPositive (ops.foldl applyOp c) := by
  induction ops with
  | nil => exact fun c _ h => h
  | cons op rest ih =>
      intro c hops h
      rw [List.all_cons, Bool.and_eq_true] at hops
      exact ih _ hops.2 (applyOp_positive c op hops.1 h)

theorem init_ratesPositive : ratesPositive CurrencyConverter.init := by
  intro p hp
  simp only [CurrencyConverter.init, List.mem_cons, List.not_mem_nil,
    or_false] at hp
  rcases hp with rfl | rfl | rfl | rfl
  · show (0 : ℚ) < 91/100
    norm_num
  · show (0 : ℚ) < 77/100
    norm_num
  · show (0 : ℚ) < 11/10
    norm_num
  · show (0 : ℚ) < 13/10
    norm_num

/-- C8 counterexample: the claimed invariant fails on the code. Python
`float('nan')` compares false against everything, so line 122 does not
reject it: `update_exchange_rate("A", "B", float('nan'))` returns `True`
and stores NaN, which is not strictly positive, in the table. -/
theorem rates_positive_counterexample :
    ¬ ratesPositive ([Op.opUpdateRate (.pyStr "A") (.pyStr "B")
        (.pyFloat .nan)].foldl applyOp CurrencyConverter.init) := by
  intro h
  have hm : ((strUpper "A", strUpper "B"), PyFloat.nan) ∈
      ([Op.opUpdateRate (.pyStr "A") (.pyStr "B")
        (.pyFloat .nan)].foldl applyOp CurrencyConverter.init).exchange_rates :=
    dictGet_mem _ _ _ (dictGet_dictSet_self _ _ _)
  exact h _ hm

/-- C8 amended: the write-time gate enforces only that no stored rate
compares `≤ 0` under float semantics — every stored rate is strictly
positive or NaN, for every sequence of operations. Strict positivity
itself holds for the initial table and is preserved by every sequence of
operations in which no update passes a NaN rate: `update_exchange_rate`
rejects every non-positive real rate at write time and no other operation
writes to the table. -/
theorem rates_positive_amended (ops : List Op) :
    ratesNotNonpos (ops.foldl applyOp CurrencyConverter.init) ∧
    (ops.all Op.nanFree = true →
      ratesPositive (ops.foldl applyOp CurrencyConverter.init)) :=
  ⟨foldl_notNonpos ops CurrencyConverter.init
      (fun p hp => PyFloat.not_le_zero_of_pos (init_ratesPositive p hp)),
   fun hops => foldl_positive ops CurrencyConverter.init hops
      init_ratesPositive⟩

/-- Witness for C8 amended, on a NaN-free operation sequence exercising an
update, a conversion and a history clear. -/
theorem rates_positive_amended_witness :
    ratesPositive
      ([Op.opUpdateRate (.pyStr "usd") (.pyStr "jpy") (.pyFloat (.real 150)),
        Op.opConvert 5 "eur" "gbp" (some "bob") "T",
        Op.opClearHistory "bob"].foldl applyOp CurrencyConverter.init) :=
  (rates_positive_amended
    [Op.opUpdateRate (.pyStr "usd") (.pyStr "jpy") (.pyFloat (.real 150)),
     Op.opConvert 5 "eur" "gbp" (some "bob") "T",
     Op.opClearHistory "bob"]).2 (by rfl)
